import Mathlib

/-!
Verification development for the Slickdeals hot-deals scraper
(`src/slickdeals_hot_deals.py`).  The markup tree, the field extractor
`extract_deal_info`, the hotness classifier (inline in `get_hot_deals`,
called `is_hot` here as in the design document), the collector
`get_hot_deals` with its title deduplication, and the two digest renderers
`create_email_html` / `create_email_text` are embedded shallowly; machine
behaviour (network fetch, SMTP) is represented by an explicit fetch-outcome
value.
-/

/-! ## String utilities (Python `startswith`, `in`, `strip`, `lower`) -/

/-- `listStarts p l` : the char list `p` is an initial segment of `l`
(Python `startswith`). -/
def listStarts : List Char → List Char → Bool
  | [], _ => true
  | _ :: _, [] => false
  | p :: ps, c :: cs => p == c && listStarts ps cs

/-- `listHasSub pat l` : `pat` occurs contiguously somewhere in `l`
(Python `in` on strings, `re` literal search). -/
def listHasSub (pat : List Char) : List Char → Bool
  | [] => listStarts pat []
  | c :: cs => listStarts pat (c :: cs) || listHasSub pat cs

/-- Python `s.startswith(p)`. -/
def strStarts (s p : String) : Bool := listStarts p.data s.data

/-- Python `p in s` (substring containment). -/
def strHasSub (s p : String) : Bool := listHasSub p.data s.data

/-- Drop leading whitespace characters. -/
def listDropWS : List Char → List Char
  | [] => []
  | c :: cs => if c.isWhitespace then listDropWS cs else c :: cs

/-- Python `s.strip()`: trim whitespace at both ends. -/
def strTrim (s : String) : String :=
  String.mk (List.reverse (listDropWS (List.reverse (listDropWS s.data))))

/-- Python `s.lower()` (ASCII case folding as used by the class regexes). -/
def strLower (s : String) : String := String.mk (s.data.map Char.toLower)

/-- Exact membership of a string in a list of strings (Python `x in set`
or `x in list`). -/
def strListHas : List String → String → Bool
  | [], _ => false
  | s :: ss, t => s == t || strListHas ss t

/-! ## The markup tree

One element node of the parsed page: tag name, class list, other
attributes, the text directly held by the node, and the child elements.
`BeautifulSoup.get_text` is the concatenation of all text in document
order. -/

inductive Node : Type where
  | mk : String → List String → List (String × String) → String → List Node → Node

def Node.tag : Node → String
  | Node.mk t _ _ _ _ => t

def Node.classes : Node → List String
  | Node.mk _ c _ _ _ => c

def Node.attrs : Node → List (String × String)
  | Node.mk _ _ a _ _ => a

def Node.text : Node → String
  | Node.mk _ _ _ tx _ => tx

def Node.children : Node → List Node
  | Node.mk _ _ _ _ ch => ch

mutual
/-- `get_text()`: all text of the subtree, in document order. -/
def getText : Node → String
  | Node.mk _ _ _ tx ch => tx ++ getTextList ch

def getTextList : List Node → String
  | [] => ""
  | n :: ns => getText n ++ getTextList ns
end

mutual
/-- `get_text(strip=True)`: concatenation of the individually stripped
text pieces of the subtree. -/
def getTextStrip : Node → String
  | Node.mk _ _ _ tx ch => strTrim tx ++ getTextStripList ch

def getTextStripList : List Node → String
  | [] => ""
  | n :: ns => getTextStrip n ++ getTextStripList ns
end

mutual
/-- All strict descendants of a node, in document (pre-)order: the order
`find` / `find_all` enumerate. -/
def allSubtrees : Node → List Node
  | Node.mk t cls ats tx ch => Node.mk t cls ats tx ch :: allSubtreesList ch

def allSubtreesList : List Node → List Node
  | [] => []
  | n :: ns => allSubtrees n ++ allSubtreesList ns
end

def descendants (n : Node) : List Node := allSubtreesList n.children

mutual
/-- Subtrees paired with their ancestor chain (nearest ancestor first),
as needed for `find_parent`. -/
def subtreesWA (anc : List Node) : Node → List (Node × List Node)
  | Node.mk t cls ats tx ch =>
      (Node.mk t cls ats tx ch, anc)
        :: subtreesListWA (Node.mk t cls ats tx ch :: anc) ch

def subtreesListWA (anc : List Node) : List Node → List (Node × List Node)
  | [] => []
  | n :: ns => subtreesWA anc n ++ subtreesListWA anc ns
end

/-- A class-attribute regex search `re.compile(p1|p2|..., re.I)` matched
against a tag's classes: some class contains some pattern,
case-insensitively (the patterns are lower-case literals). -/
def classAnySub (classes : List String) (pats : List String) : Bool :=
  classes.any (fun c => pats.any (fun p => strHasSub (strLower c) p))

/-- `tag.get(key, "")` : attribute lookup defaulting to the empty string. -/
def attrGet (n : Node) (k : String) : String :=
  match n.attrs.find? (fun p => p.1 == k) with
  | some p => p.2
  | none => ""

/-- The Python `or`-chain `t.get(k1) or t.get(k2) or ...`: first attribute
whose value is non-empty (absent and empty are both falsy). -/
def firstAttr (n : Node) : List String → String
  | [] => ""
  | k :: ks =>
    let v := attrGet n k
    if v == "" then firstAttr n ks else v

/-! ## The deal record and the currency pattern -/

/-- The deal record (`deal` dict in `extract_deal_info`). -/
structure Deal where
  title : String
  price : String
  store : String
  link : String
  votes : String
  image : String
deriving DecidableEq

/-- Digit or thousands separator: one char of the class in the regex
`\$[\d,]+\.?\d*`. -/
def isDigitComma (c : Char) : Bool := c.isDigit || c == ','

/-- Tail of a greedy match of `[\d,]+\.?\d*` at the head of `cs`
(the part after the dollar sign), assuming the digit/comma run is
non-empty. -/
def priceTail (cs : List Char) : List Char :=
  let ds := cs.takeWhile isDigitComma
  match cs.dropWhile isDigitComma with
  | [] => ds
  | c :: r2 => if c == '.' then ds ++ '.' :: r2.takeWhile Char.isDigit else ds

/-- Match of `\$[\d,]+\.?\d*` anchored at the head of `cs`. -/
def priceAt : List Char → Option (List Char)
  | [] => none
  | c :: rest =>
    if c == '$' then
      if (rest.takeWhile isDigitComma).isEmpty then none
      else some ('$' :: priceTail rest)
    else none

/-- Leftmost match of `\$[\d,]+\.?\d*` in `cs` (`re.search`). -/
def firstPriceL : List Char → Option (List Char)
  | [] => none
  | c :: cs =>
    match priceAt (c :: cs) with
    | some m => some m
    | none => firstPriceL cs

/-- `re.search(r'\$[\d,]+\.?\d*', s)`, returning the matched text. -/
def firstPrice (s : String) : Option String :=
  (firstPriceL s.data).map String.mk

/-- Whole-string match of the currency pattern `\$[\d,]+\.?\d*`: a dollar
sign, a non-empty run of digits/commas, then optionally a dot followed by
digits only. -/
def isPriceShape (s : String) : Bool :=
  match s.data with
  | [] => false
  | c :: rest =>
    c == '$' && !(rest.takeWhile isDigitComma).isEmpty &&
      (match rest.dropWhile isDigitComma with
       | [] => true
       | c2 :: r2 => c2 == '.' && r2.all Char.isDigit)

/-! ## Field extractor (`extract_deal_info`, lines 96-180) -/

/-- Lines 128-130: a non-empty address not starting with `http` is
prefixed with the site origin. -/
def fixupUrl (href : String) : String :=
  if href != "" && !(strStarts href "http") then
    "https://slickdeals.net" ++ href
  else href

/-- Lines 108-112: the three-way title-element fallback chain
(`dealCard__title` class, anchor with a `title`-hinting class,
heading `h2`/`h3`/`h4`). -/
def titleElemOf (c : Node) : Option Node :=
  match (descendants c).find? (fun n => strListHas n.classes "dealCard__title") with
  | some e => some e
  | none =>
    match (descendants c).find? (fun n => n.tag == "a" && classAnySub n.classes ["title"]) with
    | some e => some e
    | none =>
      (descendants c).find? (fun n => n.tag == "h2" || n.tag == "h3" || n.tag == "h4")

/-- Lines 114-130: title text and (origin-fixed) link address from the
title element, descending to its first anchor when it is not itself one. -/
def extractTitleLink (c : Node) : String × String :=
  match titleElemOf c with
  | none => ("", "")
  | some te =>
    let tl : String × String :=
      if te.tag != "a" then
        match (descendants te).find? (fun n => n.tag == "a") with
        | some le => (getTextStrip le, attrGet le "href")
        | none => (getTextStrip te, "")
      else (getTextStrip te, attrGet te "href")
    (tl.1, fixupUrl tl.2)

/-- Lines 133-144: the three-way image-element fallback chain. -/
def imgElemOf (c : Node) : Option Node :=
  match (descendants c).find? (fun n => strListHas n.classes "dealCard__image") with
  | some e => some e
  | none =>
    let e2 : Option Node :=
      match (descendants c).find? (fun n => strListHas n.classes "dealCard__imageContainer") with
      | some ic => (descendants ic).find? (fun n => n.tag == "img")
      | none => none
    match e2 with
    | some e => some e
    | none =>
      (descendants c).find?
        (fun n => n.tag == "img" && n.classes.all (fun cl => !(strHasSub cl "avatar")))

/-- Lines 155-156: an image address not starting with `http` is prefixed
with the site origin. -/
def imageOriginFix (src : String) : String :=
  if !(strStarts src "http") then "https://slickdeals.net" ++ src else src

/-- Lines 154-159: origin-fix a (non-empty) image address, then reject it
when it contains a placeholder/icon/avatar/logo marker. -/
def imageFix (src : String) : String :=
  if ["placeholder", "icon", "avatar", "logo"].any
      (fun x => strHasSub (strLower (imageOriginFix src)) x) then ""
  else imageOriginFix src

/-- Lines 146-159: image address from the lazy-load attribute chain,
origin-fixed, rejected when it contains a placeholder/icon/avatar/logo
marker. -/
def extractImage (c : Node) : String :=
  match imgElemOf c with
  | none => ""
  | some im =>
    let src := firstAttr im ["src", "data-src", "data-lazy-src", "data-original"]
    if src == "" then "" else imageFix src

/-- Lines 161-168: first currency match in the text of the first
descendant whose class hints `price`; empty when no such element or no
match.  There is no fallback to the fragment's whole text. -/
def extractPrice (c : Node) : String :=
  match (descendants c).find? (fun n => classAnySub n.classes ["price"]) with
  | none => ""
  | some pe =>
    match firstPrice (getTextStrip pe) with
    | some s => s
    | none => ""

/-- Lines 170-173: trimmed text of the first descendant whose class hints
`store` or `merchant`. -/
def extractStore (c : Node) : String :=
  match (descendants c).find? (fun n => classAnySub n.classes ["store", "merchant"]) with
  | some e => getTextStrip e
  | none => ""

/-- Lines 175-178: trimmed text of the first descendant whose class hints
`vote`, `score` or `thumb`. -/
def extractVotes (c : Node) : String :=
  match (descendants c).find? (fun n => classAnySub n.classes ["vote", "score", "thumb"]) with
  | some e => getTextStrip e
  | none => ""

/-- `extract_deal_info(container)` (lines 96-180). -/
def extract_deal_info (container : Node) : Deal :=
  let tl := extractTitleLink container
  { title := tl.1
    price := extractPrice container
    store := extractStore container
    link := tl.2
    votes := extractVotes container
    image := extractImage container }

/-! ## Hotness classifier (inline in `get_hot_deals`, lines 59-74) -/

/-- The hotness classifier applied to the resolved parent card: fire
glyph in the full text, or a descendant whose class matches
`popular|trending|fire|hot` (case-insensitive), or a `badge`-class
descendant whose lowered text contains `popular` or `hot`. -/
def is_hot (parent : Node) : Bool :=
  let hasFire0 := strHasSub (getText parent) "🔥"
  let hasFire1 := hasFire0 ||
    (match (descendants parent).find?
        (fun n => classAnySub n.classes ["popular", "trending", "fire", "hot"]) with
     | some _ => true
     | none => false)
  let badges := (descendants parent).filter (fun n => classAnySub n.classes ["badge"])
  hasFire1 || badges.any
    (fun b => strHasSub (strLower (getText b)) "popular" || strHasSub (strLower (getText b)) "hot")

/-! ## Deal collector (`get_hot_deals`, lines 47-93) -/

/-- Line 51: all `dealCard__content` elements of the page, in document
order, each with its ancestor chain. -/
def dealCardsOf (page : Node) : List (Node × List Node) :=
  (subtreesListWA [page] page.children).filter
    (fun p => strListHas p.1.classes "dealCard__content")

/-- Lines 55-57: `find_parent(class_=re.compile(r'dealCard'))`, defaulting
to the card itself. -/
def parentCardOf (card : Node) (anc : List Node) : Node :=
  match anc.find? (fun a => a.classes.any (fun cl => strHasSub cl "dealCard")) with
  | some p => p
  | none => card

/-- Lines 53-81: the accumulator `hot_deals` before deduplication:
per card, classify hotness on the resolved parent and keep the extracted
record when its title is non-empty. -/
def hotDraftDeals (page : Node) : List Deal :=
  (dealCardsOf page).filterMap
    (fun p =>
      let parent := parentCardOf p.1 p.2
      if is_hot parent then
        let deal := extract_deal_info p.1
        if deal.title != "" then some deal else none
      else none)

/-- Lines 84-89: deduplication by exact title, keeping the first
occurrence (`seen_titles` set modelled as the list of titles seen). -/
def dedupByTitle (seen : List String) : List Deal → List Deal
  | [] => []
  | d :: ds =>
    if strListHas seen d.title then dedupByTitle seen ds
    else d :: dedupByTitle (d.title :: seen) ds

/-- `get_hot_deals` on a successfully fetched and parsed page. -/
def get_hot_deals (page : Node) : List Deal :=
  dedupByTitle [] (hotDraftDeals page)

/-- Outcome of the page fetch (lines 40-45): a parsed page, or a
`requests.RequestException` (network error, timeout, or non-2xx status
raised by `raise_for_status`). -/
inductive FetchResult where
  | ok (page : Node)
  | err (msg : String)

/-- `get_hot_deals` including the fetch `try/except`: a fetch error is
caught and yields the empty list. -/
def getHotDealsRun : FetchResult → List Deal
  | FetchResult.err _ => []
  | FetchResult.ok page => get_hot_deals page

/-- First record of the list carrying the given title (used to state the
first-occurrence-wins property of the deduplication). -/
def findByTitle (t : String) : List Deal → Option Deal
  | [] => none
  | d :: ds => if d.title == t then some d else findByTitle t ds

/-! ## Digest renderers (`create_email_html` lines 187-269,
`create_email_text` lines 272-298).  `datetime.now().strftime(...)` is an
external input and is passed in as `date_str`. -/

/-- The HTML header template up to the interpolated date. -/
def htmlHeadPre : String :=
  "\n    <!DOCTYPE html>\n    <html>\n    <head>\n        <style>\n            body \x7b font-family: Arial, sans-serif; max-width: 600px; margin: 0 auto; padding: 20px; \x7d\n            h1 \x7b color: #e74c3c; border-bottom: 2px solid #e74c3c; padding-bottom: 10px; \x7d\n            .deal \x7b background: #f9f9f9; border-left: 4px solid #e74c3c; padding: 15px; margin: 15px 0; \x7d\n            .deal-title \x7b font-size: 16px; font-weight: bold; color: #2c3e50; \x7d\n            .deal-title a \x7b color: #2980b9; text-decoration: none; \x7d\n            .deal-title a:hover \x7b text-decoration: underline; \x7d\n            .deal-meta \x7b color: #7f8c8d; font-size: 14px; margin-top: 8px; \x7d\n            .price \x7b color: #27ae60; font-weight: bold; font-size: 18px; \x7d\n            .store \x7b color: #8e44ad; \x7d\n            .votes \x7b color: #e67e22; \x7d\n            .footer \x7b margin-top: 30px; padding-top: 20px; border-top: 1px solid #ddd; color: #95a5a6; font-size: 12px; \x7d\n            .no-deals \x7b text-align: center; padding: 40px; color: #7f8c8d; \x7d\n        </style>\n    </head>\n    <body>\n        <h1>🔥 Slickdeals Hot Deals</h1>\n        <p style=\"color: #7f8c8d;\">"

/-- The HTML header template after the interpolated date. -/
def htmlHeadPost : String := "</p>\n    "

/-- Lines 217-221: the no-deals block. -/
def noDealsHtml : String :=
  "\n        <div class=\"no-deals\">\n            <p>No hot deals found today. Check back tomorrow!</p>\n        </div>\n        "

/-- Line 223: the count summary line with singular/plural agreement. -/
def countLineHtml (deals : List Deal) : String :=
  "<p><strong>" ++ toString deals.length ++ " hot deal"
    ++ (if deals.length != 1 then "s" else "") ++ " found:</strong></p>"

/-- Lines 226-258: one per-record HTML block. -/
def dealBlockHtml (deal : Deal) : String :=
  "\n            <div class=\"deal\" style=\"display: flex; align-items: flex-start; gap: 15px;\">\n            "
    ++ (if deal.image != "" then
          "\n                <div style=\"flex-shrink: 0;\">\n                    <a href=\"" ++ deal.link ++ "\" target=\"_blank\">\n                        <img src=\"" ++ deal.image ++ "\" alt=\"\" style=\"width: 100px; height: 100px; object-fit: contain; border-radius: 4px;\">\n                    </a>\n                </div>\n                "
        else "")
    ++ "\n                <div style=\"flex-grow: 1;\">\n                    <div class=\"deal-title\">\n                        🔥 <a href=\"" ++ deal.link ++ "\" target=\"_blank\">" ++ deal.title ++ "</a>\n                    </div>\n                    <div class=\"deal-meta\">\n            "
    ++ (if deal.price != "" then "<span class=\"price\">" ++ deal.price ++ "</span> " else "")
    ++ (if deal.store != "" then "<span class=\"store\">@ " ++ deal.store ++ "</span> " else "")
    ++ (if deal.votes != "" then "<span class=\"votes\">(" ++ deal.votes ++ " votes)</span>" else "")
    ++ "\n                    </div>\n                </div>\n            </div>\n            "

/-- All per-record HTML blocks in order. -/
def dealBlocksHtml : List Deal → String
  | [] => ""
  | d :: ds => dealBlockHtml d ++ dealBlocksHtml ds

/-- Lines 260-267: the HTML footer. -/
def htmlFooter : String :=
  "\n        <div class=\"footer\">\n            <p>This email was automatically generated by your Slickdeals Hot Deals script.</p>\n            <p>Visit <a href=\"https://slickdeals.net\">Slickdeals.net</a> for more deals.</p>\n        </div>\n    </body>\n    </html>\n    "

/-- `create_email_html(deals)` with the current date passed in. -/
def create_email_html (date_str : String) (deals : List Deal) : String :=
  htmlHeadPre ++ date_str ++ htmlHeadPost
    ++ (if deals.isEmpty then noDealsHtml
        else countLineHtml deals ++ dealBlocksHtml deals)
    ++ htmlFooter

/-- `"=" * 50`. -/
def eqLine : String := String.mk (List.replicate 50 '=')

/-- `"-" * 50`. -/
def dashLine : String := String.mk (List.replicate 50 '-')

/-- Lines 285-293: one per-record plain-text block, numbered from 1. -/
def dealBlockText (i : Nat) (d : Deal) : String :=
  toString i ++ ". " ++ d.title ++ "\n"
    ++ (if d.price != "" then "   Price: " ++ d.price ++ "\n" else "")
    ++ (if d.store != "" then "   Store: " ++ d.store ++ "\n" else "")
    ++ (if d.link != "" then "   Link: " ++ d.link ++ "\n" else "")
    ++ "\n"

/-- The numbered plain-text blocks (`enumerate(deals, 1)`). -/
def dealBlocksText : Nat → List Deal → String
  | _, [] => ""
  | i, d :: ds => dealBlockText i d ++ dealBlocksText (i + 1) ds

/-- `create_email_text(deals)` with the current date passed in. -/
def create_email_text (date_str : String) (deals : List Deal) : String :=
  ("🔥 SLICKDEALS HOT DEALS - " ++ date_str ++ "\n" ++ eqLine ++ "\n\n")
    ++ (if deals.isEmpty then "No hot deals found today. Check back tomorrow!\n"
        else toString deals.length ++ " hot deal"
          ++ (if deals.length != 1 then "s" else "") ++ " found:\n\n"
          ++ dealBlocksText 1 deals)
    ++ (dashLine ++ "\n" ++ "Visit https://slickdeals.net for more deals.\n")

/-! ## Spec-side predicate and concrete fragments used by the claims -/

/-- Modelled from the spec's words ("`link`/`image`, if present, are
absolute (scheme + host present)"): the address starts with `http://` or
`https://` followed by a non-empty host part.  This follows the
specification text, for comparison with what the code produces. -/
def isAbsoluteUrl (s : String) : Bool :=
  (strStarts s "http://" && !(s.data.drop 7).isEmpty) ||
  (strStarts s "https://" && !(s.data.drop 8).isEmpty)

/-- A fragment whose visible text holds a currency amount but which has no
descendant with a `price`-hinting class. -/
def fragC3 : Node := Node.mk "div" ["bleh"] [] "$19.99" []

/-- A fragment with visible text but no `price`-classed descendant, used
to instantiate the amended price statement. -/
def fragC3w : Node := Node.mk "div" [] [] "hello $5" []

/-- A fragment whose only hotness-relevant content is a descendant with
class `flame`. -/
def fragC4 : Node := Node.mk "div" [] [] "" [Node.mk "span" ["flame"] [] "" []]

/-- A fragment with a descendant of class `fire`. -/
def fragC4w : Node := Node.mk "div" [] [] "" [Node.mk "span" ["fire"] [] "" []]

/-- A fragment whose only anchor has no title-hinting class and links to
the listing detail page `/f/99999`. -/
def fragC5 : Node :=
  Node.mk "div" [] [] "" [Node.mk "a" [] [("href", "/f/99999")] "Example Widget" []]

/-- A fragment whose title anchor carries the relative address
`/f/123-deal`. -/
def fragC6rel : Node :=
  Node.mk "div" [] [] ""
    [Node.mk "a" ["dealCard__title"] [("href", "/f/123-deal")] "Example" []]

/-- A fragment whose title anchor carries the address `httpfoo`, which the
code keeps verbatim because it starts with `http`. -/
def fragC6cex : Node :=
  Node.mk "div" [] [] ""
    [Node.mk "a" ["dealCard__title"] [("href", "httpfoo")] "Example" []]

/-- A fragment holding the fire glyph in its text. -/
def fragC7 : Node := Node.mk "div" [] [] "🔥 Deal" []

/-- A deal card with a `dealCard__title` child titled `DealA`. -/
def cardA : Node :=
  Node.mk "div" ["dealCard__content"] [] "🔥"
    [Node.mk "div" ["dealCard__title"] [] "DealA" []]

/-- A page holding the same hot deal card twice (a duplicated title). -/
def pageDup : Node := Node.mk "document" [] [] "" [cardA, cardA]

/-- The record extracted from `cardA`. -/
def dealA : Deal :=
  { title := "DealA", price := "", store := "", link := "", votes := "", image := "" }

/-- A fragment with a `dealCard__price` descendant showing a current and a
crossed-out price. -/
def fragC10 : Node :=
  Node.mk "div" [] [] "" [Node.mk "span" ["dealCard__price"] [] "$19.99 $29.99" []]

/-- The date string used to instantiate renderer statements on a concrete
date. -/
def dateW : String := "Monday, June 30, 2024"

/-! ## Lemmas: substring search and append -/

theorem strData_append (a b : String) : (a ++ b).data = a.data ++ b.data := rfl

theorem listStarts_append_left (p : List Char) :
    ∀ a r : List Char, listStarts p a = true → listStarts p (a ++ r) = true := by
  induction p with
  | nil => intro a r _; rfl
  | cons x ps ih =>
    intro a r h
    cases a with
    | nil => simp [listStarts] at h
    | cons c cs =>
      rw [List.cons_append]
      rw [listStarts] at h ⊢
      rw [Bool.and_eq_true] at h ⊢
      exact ⟨h.1, ih cs r h.2⟩

theorem listHasSub_nil_pat : ∀ l : List Char, listHasSub [] l = true := by
  intro l
  cases l with
  | nil => rfl
  | cons c cs => rw [listHasSub, listStarts, Bool.true_or]

theorem listHasSub_append_left (pat : List Char) :
    ∀ a b : List Char, listHasSub pat a = true → listHasSub pat (a ++ b) = true := by
  intro a
  induction a with
  | nil =>
    intro b h
    cases pat with
    | nil => exact listHasSub_nil_pat b
    | cons x ps => simp [listHasSub, listStarts] at h
  | cons c cs ih =>
    intro b h
    rw [List.cons_append]
    rw [listHasSub] at h
    rw [listHasSub]
    rw [Bool.or_eq_true] at h ⊢
    cases h with
    | inl h1 => exact Or.inl (listStarts_append_left pat (c :: cs) b h1)
    | inr h2 => exact Or.inr (ih b h2)

theorem listHasSub_append_right (pat : List Char) :
    ∀ a b : List Char, listHasSub pat b = true → listHasSub pat (a ++ b) = true := by
  intro a
  induction a with
  | nil => intro b h; exact h
  | cons c cs ih =>
    intro b h
    rw [List.cons_append, listHasSub, Bool.or_eq_true]
    exact Or.inr (ih b h)

theorem strHasSub_append_left (a b pat : String) (h : strHasSub a pat = true) :
    strHasSub (a ++ b) pat = true := by
  unfold strHasSub at h ⊢
  rw [strData_append]
  exact listHasSub_append_left pat.data a.data b.data h

theorem strHasSub_append_right (a b pat : String) (h : strHasSub b pat = true) :
    strHasSub (a ++ b) pat = true := by
  unfold strHasSub at h ⊢
  rw [strData_append]
  exact listHasSub_append_right pat.data a.data b.data h

theorem str_append_ne_empty_left (a b : String) (h : a.data ≠ []) : a ++ b ≠ "" := by
  intro he
  apply h
  have hd : (a ++ b).data = ([] : List Char) := by rw [he]
  rw [strData_append] at hd
  exact (List.append_eq_nil.mp hd).1

/-! ## Lemmas: deduplication by title -/

theorem dedup_sublist : ∀ (l : List Deal) (seen : List String),
    (dedupByTitle seen l).Sublist l := by
  intro l
  induction l with
  | nil => intro seen; simp [dedupByTitle]
  | cons d' ds ih =>
    intro seen
    by_cases hseen : strListHas seen d'.title = true
    · rw [dedupByTitle, if_pos hseen]
      exact List.Sublist.cons d' (ih seen)
    · rw [dedupByTitle, if_neg hseen]
      exact List.Sublist.cons₂ d' (ih (d'.title :: seen))

theorem dedup_aux : ∀ (l : List Deal) (seen : List String) (d : Deal),
    d ∈ dedupByTitle seen l →
    strListHas seen d.title = false ∧ findByTitle d.title l = some d := by
  intro l
  induction l with
  | nil => intro seen d h; simp [dedupByTitle] at h
  | cons d' ds ih =>
    intro seen d h
    by_cases hseen : strListHas seen d'.title = true
    · rw [dedupByTitle, if_pos hseen] at h
      obtain ⟨h1, h2⟩ := ih seen d h
      refine ⟨h1, ?_⟩
      rw [findByTitle, if_neg ?_]
      · exact h2
      · intro hbeq
        have heq : d'.title = d.title := eq_of_beq hbeq
        rw [← heq, hseen] at h1
        simp at h1
    · rw [dedupByTitle, if_neg hseen] at h
      rcases List.mem_cons.mp h with rfl | htail
      · refine ⟨?_, ?_⟩
        · simpa using hseen
        · simp [findByTitle]
      · obtain ⟨h1', h2'⟩ := ih (d'.title :: seen) d htail
        rw [strListHas, Bool.or_eq_false_iff] at h1'
        refine ⟨h1'.2, ?_⟩
        rw [findByTitle, if_neg ?_]
        · exact h2'
        · intro hbeq
          have h3 := h1'.1
          rw [hbeq] at h3
          simp at h3

theorem dedup_pairwise : ∀ (l : List Deal) (seen : List String),
    (dedupByTitle seen l).Pairwise (fun a b => a.title ≠ b.title) := by
  intro l
  induction l with
  | nil => intro seen; simp [dedupByTitle]
  | cons d' ds ih =>
    intro seen
    by_cases hseen : strListHas seen d'.title = true
    · rw [dedupByTitle, if_pos hseen]; exact ih seen
    · rw [dedupByTitle, if_neg hseen]
      refine List.Pairwise.cons ?_ (ih (d'.title :: seen))
      intro b hb heq
      have h1 := (dedup_aux ds (d'.title :: seen) b hb).1
      rw [strListHas, Bool.or_eq_false_iff] at h1
      have h2 := h1.1
      rw [heq] at h2
      simp at h2

theorem mem_of_mem_dedup {seen : List String} {l : List Deal} {d : Deal}
    (h : d ∈ dedupByTitle seen l) : d ∈ l :=
  (dedup_sublist l seen).subset h

/-! ## Lemmas: the draft accumulator -/

theorem hotDraft_title_ne {page : Node} {d : Deal} (h : d ∈ hotDraftDeals page) :
    (d.title != "") = true := by
  unfold hotDraftDeals at h
  obtain ⟨p, hp, hf⟩ := List.mem_filterMap.mp h
  dsimp only at hf
  split at hf
  · split at hf
    · injection hf with h'
      subst h'
      assumption
    · exact absurd hf (by simp)
  · exact absurd hf (by simp)

/-! ## Lemmas: the currency pattern -/

theorem all_takeWhile_pred {α : Type} (p : α → Bool) :
    ∀ l : List α, (l.takeWhile p).all p = true := by
  intro l
  induction l with
  | nil => rfl
  | cons a l ih =>
    rw [List.takeWhile]
    cases h : p a with
    | false => rfl
    | true => rw [List.all_cons, h, Bool.true_and]; exact ih

theorem takeWhile_of_all {α : Type} (p : α → Bool) :
    ∀ ds : List α, ds.all p = true → ds.takeWhile p = ds ∧ ds.dropWhile p = [] := by
  intro ds
  induction ds with
  | nil => intro _; exact ⟨rfl, rfl⟩
  | cons a l ih =>
    intro h
    rw [List.all_cons, Bool.and_eq_true] at h
    obtain ⟨ha, hl⟩ := h
    obtain ⟨h1, h2⟩ := ih hl
    constructor
    · rw [List.takeWhile, ha, h1]
    · rw [List.dropWhile, ha, h2]

theorem takeWhile_append_stop {α : Type} (p : α → Bool) (x : α) (r : List α)
    (hx : p x = false) :
    ∀ ds : List α, ds.all p = true →
      (ds ++ x :: r).takeWhile p = ds ∧ (ds ++ x :: r).dropWhile p = x :: r := by
  intro ds
  induction ds with
  | nil =>
    intro _
    constructor
    · rw [List.nil_append, List.takeWhile, hx]
    · rw [List.nil_append, List.dropWhile, hx]
  | cons a l ih =>
    intro h
    rw [List.all_cons, Bool.and_eq_true] at h
    obtain ⟨ha, hl⟩ := h
    obtain ⟨h1, h2⟩ := ih hl
    constructor
    · rw [List.cons_append, List.takeWhile, ha, h1]
    · rw [List.cons_append, List.dropWhile, ha, h2]

theorem priceTail_spec (rest : List Char) :
    priceTail rest = rest.takeWhile isDigitComma ∨
    ∃ fs, priceTail rest = rest.takeWhile isDigitComma ++ '.' :: fs ∧
      fs.all Char.isDigit = true := by
  unfold priceTail
  cases hdrop : rest.dropWhile isDigitComma with
  | nil => exact Or.inl rfl
  | cons c2 r2 =>
    dsimp only
    by_cases hdot : (c2 == '.') = true
    · rw [if_pos hdot]
      exact Or.inr ⟨r2.takeWhile Char.isDigit, rfl, all_takeWhile_pred Char.isDigit r2⟩
    · rw [if_neg hdot]
      exact Or.inl rfl

theorem isPriceShape_noFrac (ds : List Char) (hne : ds.isEmpty = false)
    (hall : ds.all isDigitComma = true) :
    isPriceShape (String.mk ('$' :: ds)) = true := by
  show ((('$' : Char) == '$') && !(ds.takeWhile isDigitComma).isEmpty &&
    (match ds.dropWhile isDigitComma with
     | [] => true
     | c2 :: r2 => c2 == '.' && r2.all Char.isDigit)) = true
  obtain ⟨h1, h2⟩ := takeWhile_of_all isDigitComma ds hall
  rw [h1, h2]
  simp [hne]

theorem isPriceShape_frac (ds fs : List Char) (hne : ds.isEmpty = false)
    (hall : ds.all isDigitComma = true) (hfs : fs.all Char.isDigit = true) :
    isPriceShape (String.mk ('$' :: (ds ++ '.' :: fs))) = true := by
  show ((('$' : Char) == '$') && !((ds ++ '.' :: fs).takeWhile isDigitComma).isEmpty &&
    (match (ds ++ '.' :: fs).dropWhile isDigitComma with
     | [] => true
     | c2 :: r2 => c2 == '.' && r2.all Char.isDigit)) = true
  have hdotp : isDigitComma '.' = false := by decide
  obtain ⟨h1, h2⟩ := takeWhile_append_stop isDigitComma '.' fs hdotp ds hall
  rw [h1, h2]
  simp [hne, hfs]

theorem priceAt_shape : ∀ (cs m : List Char), priceAt cs = some m →
    isPriceShape (String.mk m) = true := by
  intro cs m h
  cases cs with
  | nil => simp [priceAt] at h
  | cons c rest =>
    rw [priceAt] at h
    by_cases hc : (c == '$') = true
    · rw [if_pos hc] at h
      by_cases he : (rest.takeWhile isDigitComma).isEmpty = true
      · rw [if_pos he] at h; exact absurd h (by simp)
      · rw [if_neg he] at h
        injection h with h'
        subst h'
        have hne : (rest.takeWhile isDigitComma).isEmpty = false := by
          cases hb : (rest.takeWhile isDigitComma).isEmpty
          · rfl
          · exact absurd hb he
        have hall := all_takeWhile_pred isDigitComma rest
        rcases priceTail_spec rest with hpt | ⟨fs, hpt, hfs⟩
        · rw [hpt]
          exact isPriceShape_noFrac _ hne hall
        · rw [hpt]
          exact isPriceShape_frac _ _ hne hall hfs
    · rw [if_neg hc] at h
      exact absurd h (by simp)

theorem firstPriceL_shape : ∀ (cs m : List Char), firstPriceL cs = some m →
    isPriceShape (String.mk m) = true := by
  intro cs
  induction cs with
  | nil => intro m h; simp [firstPriceL] at h
  | cons c rest ih =>
    intro m h
    rw [firstPriceL] at h
    cases hp : priceAt (c :: rest) with
    | some m' =>
      rw [hp] at h
      injection h with h'
      subst h'
      exact priceAt_shape _ _ hp
    | none =>
      rw [hp] at h
      exact ih m h

theorem firstPrice_shape (s m : String) (h : firstPrice s = some m) :
    isPriceShape m = true := by
  unfold firstPrice at h
  cases hf : firstPriceL s.data with
  | none => rw [hf] at h; exact absurd h (by simp)
  | some l =>
    rw [hf] at h
    simp at h
    rw [← h]
    exact firstPriceL_shape s.data l hf

/-! ## Lemmas: URL origin rewriting -/

theorem strStarts_origin (h : String) :
    strStarts ("https://slickdeals.net" ++ h) "http" = true := by
  unfold strStarts
  rw [strData_append]
  exact listStarts_append_left _ _ _ (by decide)

theorem fixupUrl_http (h : String) (hne : fixupUrl h ≠ "") :
    strStarts (fixupUrl h) "http" = true := by
  unfold fixupUrl at hne ⊢
  by_cases hc : (h != "" && !(strStarts h "http")) = true
  · rw [if_pos hc]
    exact strStarts_origin h
  · rw [if_neg hc] at hne ⊢
    cases hs : strStarts h "http" with
    | true => rfl
    | false =>
      exact absurd (by rw [Bool.and_eq_true, hs]; exact ⟨bne_iff_ne.mpr hne, rfl⟩) hc

theorem imageOriginFix_http (src : String) :
    strStarts (imageOriginFix src) "http" = true := by
  unfold imageOriginFix
  cases hs : strStarts src "http" with
  | true => rw [if_neg (by decide)]; exact hs
  | false => rw [if_pos (by decide)]; exact strStarts_origin src

theorem imageFix_http (src : String) (hne : imageFix src ≠ "") :
    strStarts (imageFix src) "http" = true := by
  unfold imageFix at hne ⊢
  by_cases hp : (["placeholder", "icon", "avatar", "logo"].any
      (fun x => strHasSub (strLower (imageOriginFix src)) x)) = true
  · rw [if_pos hp] at hne
    exact absurd rfl hne
  · rw [if_neg hp]
    exact imageOriginFix_http src

theorem extractTitleLink_snd (c : Node) :
    (extractTitleLink c).2 = "" ∨ ∃ h, (extractTitleLink c).2 = fixupUrl h := by
  unfold extractTitleLink
  cases titleElemOf c with
  | none => exact Or.inl rfl
  | some te => exact Or.inr ⟨_, rfl⟩

theorem extractImage_http (c : Node) (hne : extractImage c ≠ "") :
    strStarts (extractImage c) "http" = true := by
  unfold extractImage at hne ⊢
  cases himg : imgElemOf c with
  | none =>
    rw [himg] at hne
    exact absurd rfl hne
  | some im =>
    rw [himg] at hne
    dsimp only at hne ⊢
    by_cases hsrc : (firstAttr im ["src", "data-src", "data-lazy-src", "data-original"] == "") = true
    · rw [if_pos hsrc] at hne
      exact absurd rfl hne
    · rw [if_neg hsrc] at hne ⊢
      exact imageFix_http _ hne

theorem str_append_ne_empty_right (a b : String) (h : b.data ≠ []) : a ++ b ≠ "" := by
  intro he
  apply h
  have hd : (a ++ b).data = ([] : List Char) := by rw [he]
  rw [strData_append] at hd
  exact (List.append_eq_nil.mp hd).2

/-! ## The claims -/

set_option maxRecDepth 10000

/-- C1: for every page, the collector's output has pairwise distinct
titles (case-sensitive exact comparison), is a sublist of the accumulated
hot drafts (so the scan order of the page is preserved), and every emitted
record is the first-scanned draft carrying its title. -/
theorem C1_dedup_first_occurrence_order (page : Node) :
    ((get_hot_deals page).Pairwise (fun a b => a.title ≠ b.title))
    ∧ (get_hot_deals page).Sublist (hotDraftDeals page)
    ∧ (∀ d ∈ get_hot_deals page,
        findByTitle d.title (hotDraftDeals page) = some d) := by
  refine ⟨dedup_pairwise (hotDraftDeals page) [],
    dedup_sublist (hotDraftDeals page) [], ?_⟩
  intro d hd
  exact (dedup_aux (hotDraftDeals page) [] d hd).2

/-- Witness for C1 on a page carrying the same hot card twice. -/
theorem C1_dedup_first_occurrence_order_witness :
    findByTitle dealA.title (hotDraftDeals pageDup) = some dealA :=
  (C1_dedup_first_occurrence_order pageDup).2.2 dealA (by decide)

/-- C2: every record in the collector's output has a non-empty title; a
draft with an empty title is discarded before deduplication. -/
theorem C2_emitted_titles_nonempty (page : Node) :
    (get_hot_deals page).all (fun d => d.title != "") = true := by
  rw [List.all_eq_true]
  intro d hd
  exact hotDraft_title_ne (mem_of_mem_dedup hd)

/-- C3 counterexample: a fragment with no `price`-classed descendant whose
visible text contains the currency amount `$19.99` still gets the empty
price: the extractor has no fallback scan over the fragment's whole
text. -/
theorem C3_counterexample_no_fulltext_fallback :
    ((descendants fragC3).find? (fun n => classAnySub n.classes ["price"])).isNone = true
    ∧ firstPrice (getText fragC3) = some "$19.99"
    ∧ (extract_deal_info fragC3).price = "" := by decide

/-- C3 (amended): when no descendant's class hints `price`,
`extract_deal_info` leaves the price field empty; there is no fallback to
scanning the fragment's entire visible text. -/
theorem C3_amended_no_price_elem_empty (c : Node)
    (h : ((descendants c).find? (fun n => classAnySub n.classes ["price"])).isNone = true) :
    (extract_deal_info c).price = "" := by
  have h' : (descendants c).find? (fun n => classAnySub n.classes ["price"]) = none :=
    Option.isNone_iff_eq_none.mp h
  show extractPrice c = ""
  unfold extractPrice
  rw [h']

/-- Witness for the amended C3. -/
theorem C3_amended_no_price_elem_empty_witness :
    (extract_deal_info fragC3w).price = "" :=
  C3_amended_no_price_elem_empty fragC3w (by decide)

/-- C4 counterexample: a fragment whose only signal is a descendant of
class `flame` is not classified hot: the class regex is
`popular|trending|fire|hot` and does not include `flame`. -/
theorem C4_counterexample_flame_not_hot :
    (descendants fragC4).any (fun m => classAnySub m.classes ["flame"]) = true
    ∧ is_hot fragC4 = false := by decide

/-- C4 (amended): a fragment containing a descendant whose class matches
(case-insensitively) any of `popular`, `trending`, `fire`, `hot` is
classified hot even without any other signal; `flame` is not among the
matched patterns. -/
theorem C4_amended_class_signal_hot (n : Node)
    (h : (descendants n).any
        (fun m => classAnySub m.classes ["popular", "trending", "fire", "hot"]) = true) :
    is_hot n = true := by
  have hs : ((descendants n).find?
      (fun m => classAnySub m.classes ["popular", "trending", "fire", "hot"])).isSome = true := by
    rw [List.find?_isSome]
    obtain ⟨x, hx, hpx⟩ := List.any_eq_true.mp h
    exact ⟨x, hx, hpx⟩
  unfold is_hot
  dsimp only
  cases hf : (descendants n).find?
      (fun m => classAnySub m.classes ["popular", "trending", "fire", "hot"]) with
  | none => rw [hf] at hs; simp at hs
  | some y => simp

/-- Witness for the amended C4. -/
theorem C4_amended_class_signal_hot_witness : is_hot fragC4w = true :=
  C4_amended_class_signal_hot fragC4w (by decide)

/-- C5 counterexample: a fragment with no title element of the three
implemented fallbacks but with an anchor to the listing-detail pattern
`/f/...` gets empty title and link: the fourth anchor fallback does not
exist in the code. -/
theorem C5_counterexample_anchor_fallback_absent :
    (descendants fragC5).any
      (fun n => n.tag == "a" && strStarts (attrGet n "href") "/f/") = true
    ∧ (extract_deal_info fragC5).title = ""
    ∧ (extract_deal_info fragC5).link = "" := by decide

/-- C5 (amended): when none of the three title fallbacks (a
`dealCard__title`-classed element, an anchor with a `title`-hinting class,
a heading `h2`-`h4`) matches, title and link are left empty; there is no
fourth fallback taking them from a detail-page anchor. -/
theorem C5_amended_no_title_elem_empty (c : Node)
    (h : (titleElemOf c).isNone = true) :
    (extract_deal_info c).title = "" ∧ (extract_deal_info c).link = "" := by
  have h' : titleElemOf c = none := Option.isNone_iff_eq_none.mp h
  constructor
  · show (extractTitleLink c).1 = ""
    unfold extractTitleLink
    rw [h']
  · show (extractTitleLink c).2 = ""
    unfold extractTitleLink
    rw [h']

/-- Witness for the amended C5. -/
theorem C5_amended_no_title_elem_empty_witness :
    (extract_deal_info fragC5).title = "" :=
  (C5_amended_no_title_elem_empty fragC5 (by decide)).1

/-- C6 counterexample: a title anchor address `httpfoo` is kept verbatim
(it passes the `startswith("http")` test), so the emitted link is
non-empty yet not an absolute URL with scheme and host. -/
theorem C6_counterexample_link_not_absolute :
    (extract_deal_info fragC6cex).link = "httpfoo"
    ∧ (extract_deal_info fragC6cex).link ≠ ""
    ∧ isAbsoluteUrl (extract_deal_info fragC6cex).link = false := by decide

/-- C6 (amended): non-empty link and image fields always start with
`http` (an address already starting with `http` is kept verbatim, even
when it is not a full scheme-and-host URL); a relative address such as
`/f/123-deal` is rewritten against the site origin to
`https://slickdeals.net/f/123-deal`. -/
theorem C6_amended_link_image_http (c : Node) :
    ((extract_deal_info c).link ≠ "" →
      strStarts (extract_deal_info c).link "http" = true)
    ∧ ((extract_deal_info c).image ≠ "" →
      strStarts (extract_deal_info c).image "http" = true)
    ∧ (extract_deal_info fragC6rel).link = "https://slickdeals.net/f/123-deal" := by
  refine ⟨?_, ?_, by decide⟩
  · intro hne
    have hl : (extract_deal_info c).link = (extractTitleLink c).2 := rfl
    rw [hl] at hne ⊢
    rcases extractTitleLink_snd c with h0 | ⟨href, hh⟩
    · exact absurd h0 hne
    · rw [hh] at hne ⊢
      exact fixupUrl_http href hne
  · intro hne
    have hi : (extract_deal_info c).image = extractImage c := rfl
    rw [hi] at hne ⊢
    exact extractImage_http c hne

/-- Witness for the amended C6. -/
theorem C6_amended_link_image_http_witness :
    strStarts (extract_deal_info fragC6rel).link "http" = true :=
  (C6_amended_link_image_http fragC6rel).1 (by decide)

/-- C7: a fragment (after resolving the wrapping ancestor card) whose full
visible text contains the fire glyph is always classified hot, whatever
its other content. -/
theorem C7_fire_glyph_hot (n : Node)
    (h : strHasSub (getText n) "🔥" = true) :
    is_hot n = true := by
  unfold is_hot
  dsimp only
  rw [h]
  rfl

/-- Witness for C7. -/
theorem C7_fire_glyph_hot_witness : is_hot fragC7 = true :=
  C7_fire_glyph_hot fragC7 (by decide)

/-- C8: on the empty record list both rendered bodies contain the distinct
no-deals message and are non-empty, for every date string; and on a
concrete date neither body contains a per-record block (the per-record
HTML deal div or a numbered text item). -/
theorem C8_empty_render_no_deals_message (date_str : String) :
    strHasSub (create_email_html date_str []) "No hot deals found today. Check back tomorrow!" = true
    ∧ strHasSub (create_email_text date_str []) "No hot deals found today. Check back tomorrow!" = true
    ∧ create_email_html date_str [] ≠ ""
    ∧ create_email_text date_str [] ≠ ""
    ∧ strHasSub (create_email_html dateW []) "<div class=\"deal\" style" = false
    ∧ strHasSub (create_email_text dateW []) "1. " = false := by
  have hred : create_email_html date_str [] =
      (((htmlHeadPre ++ date_str) ++ htmlHeadPost) ++ noDealsHtml) ++ htmlFooter := rfl
  have hredT : create_email_text date_str [] =
      ((((("🔥 SLICKDEALS HOT DEALS - " ++ date_str) ++ "\n") ++ eqLine) ++ "\n\n")
          ++ "No hot deals found today. Check back tomorrow!\n")
        ++ ((dashLine ++ "\n") ++ "Visit https://slickdeals.net for more deals.\n") := rfl
  refine ⟨?_, ?_, ?_, ?_, by decide, by decide⟩
  · rw [hred]
    apply strHasSub_append_left
    apply strHasSub_append_right
    decide
  · rw [hredT]
    apply strHasSub_append_left
    apply strHasSub_append_right
    decide
  · rw [hred]
    apply str_append_ne_empty_right
    decide
  · rw [hredT]
    apply str_append_ne_empty_right
    decide

/-- C9: a failed page fetch (network error, timeout or non-2xx status) is
caught and the collector returns the empty list instead of raising. -/
theorem C9_fetch_error_empty_list (msg : String) :
    getHotDealsRun (FetchResult.err msg) = [] := rfl

/-- C10: a non-empty extracted price is a full match of the currency
pattern (dollar sign, digits/commas, optional decimal point and digits),
and the leftmost-match rule picks `$19.99` out of `$19.99 $29.99`, never
the crossed-out second price. -/
theorem C10_price_shape (c : Node)
    (h : (extract_deal_info c).price ≠ "") :
    isPriceShape (extract_deal_info c).price = true
    ∧ firstPrice "$19.99 $29.99" = some "$19.99" := by
  refine ⟨?_, by decide⟩
  have hp : (extract_deal_info c).price = extractPrice c := rfl
  rw [hp] at h ⊢
  unfold extractPrice at h ⊢
  cases hf : (descendants c).find? (fun n => classAnySub n.classes ["price"]) with
  | none =>
    rw [hf] at h
    exact absurd rfl h
  | some pe =>
    rw [hf] at h
    dsimp only at h ⊢
    cases hm : firstPrice (getTextStrip pe) with
    | none =>
      rw [hm] at h
      exact absurd rfl h
    | some s =>
      rw [hm] at h
      dsimp only at h ⊢
      exact firstPrice_shape _ _ hm

/-- Witness for C10. -/
theorem C10_price_shape_witness :
    isPriceShape (extract_deal_info fragC10).price = true :=
  (C10_price_shape fragC10 (by decide)).1
